import Mathlib

/-!
# Verification of the node-sdk request layer

A shallow embedding of `src/index.js` of the smartcar node-sdk fork:
the compatibility query-parameter builder, the config store, the request
descriptors built by the public operations (`getUser`, `getVehicles`,
`getCompatibility`), and the webhook signature helpers (`hashChallenge`,
`verifyPayload`, backed by a full HMAC-SHA256 over byte lists).

JavaScript values are modelled explicitly: an optional string-valued
field of an options bag becomes `Option String`, and JS truthiness of a
string (`''` is falsy) becomes `truthyStr`.  Query-parameter objects are
association lists with JS-object assignment semantics (`setParam`
overwrites an existing key in place, otherwise appends).

The library files `lib/util`, `lib/config` and `lib/smartcar-service`
are not part of the sources; the few facts needed about them
(environment lookup, URL joining) are modelled from the spec and marked
`Modelled from the spec:` in their doc comments.
-/

namespace NodeSdk

/-- JS truthiness of an optional string: `undefined` and `''` are falsy,
every other string is truthy. -/
def truthyStr : Option String → Bool
  | some s => s ≠ ""
  | none => false

/-- JS `a || b` for an optional string `a` and string default `b`. -/
def jsOr (a : Option String) (b : String) : String :=
  match a with
  | some s => if s = "" then b else s
  | none => b

/-- A flag value in the `options.flags` object: a string or a boolean
(per the JSDoc on `getCompatibility`). -/
inductive FlagValue where
  | str (s : String)
  | bool (b : Bool)
deriving DecidableEq, Repr

/-- How a flag value prints inside the flags string: booleans render as
`true` / `false`. -/
def renderFlagValue : FlagValue → String
  | .str s => s
  | .bool b => if b then "true" else "false"

/-- Modelled from the spec: `util.getFlagsString` lives in `lib/util`,
which is not part of the sources; spec rule 4.2(3) renders the flags
object as `key1:value1,key2:value2,...` with boolean `true` as `"true"`. -/
def getFlagsString (flags : List (String × FlagValue)) : String :=
  String.intercalate "," (flags.map (fun p => p.1 ++ ":" ++ renderFlagValue p.2))

/-- The options bag accepted by `getCompatibility` / `buildQueryParams`.
A missing key is `none`; `testMode` present-but-false is `some false`. -/
structure CompatOptions where
  flags : Option (List (String × FlagValue)) := none
  testMode : Option Bool := none
  testModeCompatibilityLevel : Option String := none
  clientId : Option String := none
  clientSecret : Option String := none
  version : Option String := none
deriving DecidableEq, Repr

/-- A JS object used as a query-string map: an association list of
string keys to string values, in insertion order. -/
abbrev Params := List (String × String)

/-- JS object assignment `obj[k] = v`: overwrite the existing entry for
`k` in place, or append a new one. -/
def setParam (ps : Params) (k v : String) : Params :=
  if ps.any (fun p => p.1 = k) then
    ps.map (fun p => if p.1 = k then (k, v) else p)
  else
    ps ++ [(k, v)]

/-- Key lookup in a params object. -/
def getParam (ps : Params) (k : String) : Option String :=
  List.lookup k ps

/-- `buildQueryParams(vin, scope, country, options)` from `src/index.js`
lines 21–43: start from `{vin, scope: scope.join(' '), country}`, then
add `flags` when `options.flags` is truthy, `mode` when the `testMode`
key is present, and `test_mode_compatibility_level` plus `mode = 'test'`
when `options.testModeCompatibilityLevel` is truthy. -/
def buildQueryParams (vin : String) (scope : List String) (country : String)
    (options : CompatOptions) : Params :=
  let parameters : Params :=
    [("vin", vin), ("scope", String.intercalate " " scope), ("country", country)]
  let parameters :=
    match options.flags with
    | some fl => setParam parameters "flags" (getFlagsString fl)
    | none => parameters
  let parameters :=
    match options.testMode with
    | some b => setParam parameters "mode" (if b then "test" else "live")
    | none => parameters
  match options.testModeCompatibilityLevel with
  | some level =>
      if level = "" then parameters
      else setParam (setParam parameters "test_mode_compatibility_level" level) "mode" "test"
  | none => parameters

/-! ## SHA-256 and HMAC-SHA256 (FIPS 180-4 / RFC 2104)

`src/index.js` delegates to `crypto.createHmac('sha256', amt)`; the
algorithm is embedded here in full over `List Nat` bytes, 32-bit words
carried as `Nat` with explicit reduction modulo `2^32`. -/

/-- `2^32`, the word modulus of SHA-256. -/
def w32 : Nat := 4294967296

/-- Right rotation of a 32-bit word. -/
def rotr (n x : Nat) : Nat := ((x >>> n) ||| (x <<< (32 - n))) % w32

def smallSigma0 (x : Nat) : Nat := (rotr 7 x) ^^^ (rotr 18 x) ^^^ (x >>> 3)

def smallSigma1 (x : Nat) : Nat := (rotr 17 x) ^^^ (rotr 19 x) ^^^ (x >>> 10)

def bigSigma0 (x : Nat) : Nat := (rotr 2 x) ^^^ (rotr 13 x) ^^^ (rotr 22 x)

def bigSigma1 (x : Nat) : Nat := (rotr 6 x) ^^^ (rotr 11 x) ^^^ (rotr 25 x)

/-- The 64 SHA-256 round constants. -/
def shaK : List Nat :=
  [1116352408, 1899447441, 3049323471, 3921009573,
   961987163, 1508970993, 2453635748, 2870763221,
   3624381080, 310598401, 607225278, 1426881987,
   1925078388, 2162078206, 2614888103, 3248222580,
   3835390401, 4022224774, 264347078, 604807628,
   770255983, 1249150122, 1555081692, 1996064986,
   2554220882, 2821834349, 2952996808, 3210313671,
   3336571891, 3584528711, 113926993, 338241895,
   666307205, 773529912, 1294757372, 1396182291,
   1695183700, 1986661051, 2177026350, 2456956037,
   2730485921, 2820302411, 3259730800, 3345764771,
   3516065817, 3600352804, 4094571909, 275423344,
   430227734, 506948616, 659060556, 883997877,
   958139571, 1322822218, 1537002063, 1747873779,
   1955562222, 2024104815, 2227730452, 2361852424,
   2428436474, 2756734187, 3204031479, 3329325298]

/-- The SHA-256 initial hash state. -/
def shaH0 : List Nat :=
  [1779033703, 3144134277, 1013904242, 2773480762,
   1359893119, 2600822924, 528734635, 1541459225]

/-- Big-endian byte decomposition of `v` into `k` bytes. -/
def beBytes : Nat → Nat → List Nat
  | 0, _ => []
  | k + 1, v => beBytes k (v / 256) ++ [v % 256]

/-- SHA-256 padding: a `0x80` byte, zeros, and the 64-bit big-endian bit
length, filling to a multiple of 64 bytes. -/
def padMessage (msg : List Nat) : List Nat :=
  let len := msg.length
  let zeros := (64 - ((len + 9) % 64)) % 64
  msg ++ [0x80] ++ List.replicate zeros 0 ++ beBytes 8 (len * 8)

/-- Big-endian 32-bit words from a byte list. -/
def toWords : List Nat → List Nat
  | a :: b :: c :: d :: rest =>
      (a * 16777216 + b * 65536 + c * 256 + d) :: toWords rest
  | _ => []

/-- One step of the message-schedule extension `W[t] := σ1(W[t-2]) +
W[t-7] + σ0(W[t-15]) + W[t-16]`. -/
def extendStep (w : List Nat) : List Nat :=
  let t := w.length
  w ++ [(smallSigma1 (w.getD (t - 2) 0) + w.getD (t - 7) 0 +
         smallSigma0 (w.getD (t - 15) 0) + w.getD (t - 16) 0) % w32]

/-- One SHA-256 compression round on the eight-word working state, fed
the already-summed `K[t] + W[t]`. -/
def compressRound (st : List Nat) (kw : Nat) : List Nat :=
  match st with
  | [a, b, c, d, e, f, g, h] =>
      let ch := (e &&& f) ^^^ ((e ^^^ 4294967295) &&& g)
      let maj := (a &&& b) ^^^ (a &&& c) ^^^ (b &&& c)
      let t1 := (h + bigSigma1 e + ch + kw) % w32
      let t2 := (bigSigma0 a + maj) % w32
      [(t1 + t2) % w32, a, b, c, (d + t1) % w32, e, f, g]
  | _ => st

/-- Compression of one 64-byte block into the running hash state. -/
def compressBlock (h : List Nat) (block : List Nat) : List Nat :=
  let w := Nat.iterate extendStep 48 (toWords block)
  let kw := List.zipWith (fun k wi => (k + wi) % w32) shaK w
  let st := kw.foldl compressRound h
  List.zipWith (fun x y => (x + y) % w32) h st

/-- Split a padded message into its 64-byte blocks, counted up front so
the recursion is structural. -/
def takeBlocks : Nat → List Nat → List (List Nat)
  | 0, _ => []
  | n + 1, bs => bs.take 64 :: takeBlocks n (bs.drop 64)

/-- SHA-256 of a byte list, as a 32-byte list. -/
def sha256 (msg : List Nat) : List Nat :=
  let padded := padMessage msg
  let blocks := takeBlocks (padded.length / 64) padded
  ((blocks.foldl compressBlock shaH0).map (beBytes 4)).flatten

/-- HMAC-SHA256 (RFC 2104): hash an over-long key, zero-pad to the
64-byte block size, and run the nested inner/outer hashes with the
`0x36` / `0x5c` pads. -/
def hmacSha256 (key msg : List Nat) : List Nat :=
  let k0 := if key.length > 64 then sha256 key else key
  let kPad := k0 ++ List.replicate (64 - k0.length) 0
  sha256 ((kPad.map (fun b => b ^^^ 0x5c)) ++
          sha256 ((kPad.map (fun b => b ^^^ 0x36)) ++ msg))

/-- Lower-case hex digit for a value below 16. -/
def hexDigit (n : Nat) : Char :=
  if n < 10 then Char.ofNat (48 + n) else Char.ofNat (87 + n)

/-- Lower-case hex encoding of a byte list, as `digest('hex')` yields. -/
def toHex (bs : List Nat) : String :=
  String.mk (bs.flatMap (fun b => [hexDigit (b / 16), hexDigit (b % 16)]))

/-- UTF-8 encoding of one character. -/
def utf8Bytes (c : Char) : List Nat :=
  let n := c.toNat
  if n < 0x80 then [n]
  else if n < 0x800 then [0xC0 ||| (n >>> 6), 0x80 ||| (n &&& 0x3F)]
  else if n < 0x10000 then
    [0xE0 ||| (n >>> 12), 0x80 ||| ((n >>> 6) &&& 0x3F), 0x80 ||| (n &&& 0x3F)]
  else
    [0xF0 ||| (n >>> 18), 0x80 ||| ((n >>> 12) &&& 0x3F),
     0x80 ||| ((n >>> 6) &&& 0x3F), 0x80 ||| (n &&& 0x3F)]

/-- UTF-8 bytes of a string, as Node's `Buffer.from(s, 'utf8')`. -/
def strToBytes (s : String) : List Nat :=
  s.data.flatMap utf8Bytes

/-- `smartcar.hashChallenge(amt, challenge)` from `src/index.js` lines
218–221: `crypto.createHmac('sha256', amt).update(challenge).digest('hex')`. -/
def hashChallenge (amt challenge : String) : String :=
  toHex (hmacSha256 (strToBytes amt) (strToBytes challenge))

/-! ## JSON values and `JSON.stringify` -/

/-- A JSON value, the model of a webhook response body. -/
inductive Json where
  | null : Json
  | bool (b : Bool) : Json
  | num (n : Int) : Json
  | str (s : String) : Json
  | arr (items : List Json) : Json
  | obj (fields : List (String × Json)) : Json
deriving Repr

/-- The escape `JSON.stringify` applies to one character inside a
string literal. -/
def escapeJsonChar (c : Char) : List Char :=
  if c = '"' then ['\\', '"']
  else if c = '\\' then ['\\', '\\']
  else if c = '\n' then ['\\', 'n']
  else if c = '\t' then ['\\', 't']
  else if c = '\r' then ['\\', 'r']
  else if c.toNat = 8 then ['\\', 'b']
  else if c.toNat = 12 then ['\\', 'f']
  else if c.toNat < 32 then
    ['\\', 'u', '0', '0', hexDigit (c.toNat / 16), hexDigit (c.toNat % 16)]
  else [c]

/-- A JSON string literal: quoted and escaped. -/
def quoteJson (s : String) : String :=
  "\"" ++ String.mk (s.data.flatMap escapeJsonChar) ++ "\""

mutual

/-- `JSON.stringify` without replacer or spacing: members in insertion
order, no whitespace. -/
def jsonStringify : Json → String
  | .null => "null"
  | .bool b => if b then "true" else "false"
  | .num n => toString n
  | .str s => quoteJson s
  | .arr items => "[" ++ String.intercalate "," (stringifyItems items) ++ "]"
  | .obj fields =>
      "\x7b" ++ String.intercalate "," (stringifyFields fields) ++ "\x7d"

/-- Stringify the items of a JSON array. -/
def stringifyItems : List Json → List String
  | [] => []
  | x :: xs => jsonStringify x :: stringifyItems xs

/-- Stringify the members of a JSON object as `"key":value`. -/
def stringifyFields : List (String × Json) → List String
  | [] => []
  | (k, v) :: xs => (quoteJson k ++ ":" ++ jsonStringify v) :: stringifyFields xs

end

/-- `smartcar.verifyPayload(amt, signature, body)` from `src/index.js`
lines 232–234: `hashChallenge(amt, JSON.stringify(body)) === signature`. -/
def verifyPayload (amt signature : String) (body : Json) : Bool :=
  hashChallenge amt (jsonStringify body) == signature

/-! ## Config store, environment, and the request descriptors -/

/-- The process-wide config singleton of `lib/config`: API base URL and
version string. -/
structure Config where
  api : String
  version : String
deriving DecidableEq, Repr

/-- `smartcar.setApiVersion(version)` from `src/index.js` lines 50–52:
`config.version = version`, as a state transformer. -/
def setApiVersion (version : String) (c : Config) : Config :=
  { c with version := version }

/-- `smartcar.getApiVersion()` from `src/index.js` line 59. -/
def getApiVersion (c : Config) : String :=
  c.version

/-- The environment variables the sdk reads; an unset variable is
`none`, a set-but-empty one is `some ""`. -/
structure Env where
  apiOrigin : Option String := none
  clientId : Option String := none
  clientSecret : Option String := none
deriving DecidableEq, Repr

/-- Modelled from the spec: `util.getConfig(name)` of `lib/util` is not
in the sources; per spec §6 it reads the named environment variable
(`SMARTCAR_API_ORIGIN`, `SMARTCAR_CLIENT_ID`, `SMARTCAR_CLIENT_SECRET`). -/
def getConfig (env : Env) (name : String) : Option String :=
  if name = "SMARTCAR_API_ORIGIN" then env.apiOrigin
  else if name = "SMARTCAR_CLIENT_ID" then env.clientId
  else if name = "SMARTCAR_CLIENT_SECRET" then env.clientSecret
  else none

/-- Modelled from the spec: `util.getOrThrowConfig(name)` of `lib/util`
is not in the sources; per spec §7, a missing required credential fails
fast with a validation-style error before any network call. -/
def getOrThrowConfig (env : Env) (name : String) : Except String String :=
  match getConfig env name with
  | some v => Except.ok v
  | none => Except.error (name ++ " not set or not available")

/-- The `auth` options object handed to `new SmartcarService({...})`:
either a bearer token or a basic-auth user/pass pair, as optional
fields of one JS object. -/
structure Auth where
  bearer : Option String := none
  user : Option String := none
  pass : Option String := none
deriving DecidableEq, Repr

/-- The request a public operation hands to the dispatcher: the
`SmartcarService` constructor options plus the `request(method, path)`
arguments. -/
structure Request where
  baseUrl : String
  auth : Auth
  qs : Params
  method : String
  path : String
deriving DecidableEq, Repr

/-- Modelled from the spec: the dispatcher `lib/smartcar-service` is not
in the sources; spec §6 fixes the final URL shape
`https://api.<provider>.com/v{version}/...`, so the path is joined to
the base URL with exactly one slash.  This is the request path relative
to the base URL. -/
def effectivePath (path : String) : String :=
  match path.data with
  | '/' :: _ => path
  | _ => "/" ++ path

/-- `smartcar.getUser(accessToken)` from `src/index.js` lines 86–95, up
to the network call: the request descriptor it constructs. -/
def getUserRequest (env : Env) (config : Config) (accessToken : String) : Request :=
  { baseUrl := jsOr (getConfig env "SMARTCAR_API_ORIGIN") config.api
    auth := { bearer := some accessToken }
    qs := []
    method := "get"
    path := "/v" ++ config.version ++ "/user" }

/-- Modelled from the spec: `util.getUrl()` of `lib/util` is not in the
sources; the test suite (`src/test/test_util.js`) pins
`getUrl() = config.api + '/v' + config.version + '/vehicles'`. -/
def getUrl (config : Config) : String :=
  config.api ++ "/v" ++ config.version ++ "/vehicles"

/-- `smartcar.getVehicles(accessToken, paging)` from `src/index.js`
lines 136–143, up to the network call. -/
def getVehiclesRequest (config : Config) (accessToken : String)
    (paging : Params) : Request :=
  { baseUrl := getUrl config
    auth := { bearer := some accessToken }
    qs := paging
    method := "get"
    path := "" }

/-- `smartcar.getCompatibility(vin, scope, country, options)` from
`src/index.js` lines 184–208, up to the network call: default the
country with `country || 'US'`, resolve each credential as
`options.x || util.getOrThrowConfig(...)` (failing fast when neither is
available), then build the request descriptor. -/
def getCompatibilityRequest (env : Env) (config : Config) (vin : String)
    (scope : List String) (country : Option String) (options : CompatOptions) :
    Except String Request :=
  let country := jsOr country "US"
  match (if truthyStr options.clientId then Except.ok (options.clientId.getD "")
         else getOrThrowConfig env "SMARTCAR_CLIENT_ID") with
  | Except.error e => Except.error e
  | Except.ok clientId =>
    match (if truthyStr options.clientSecret then Except.ok (options.clientSecret.getD "")
           else getOrThrowConfig env "SMARTCAR_CLIENT_SECRET") with
    | Except.error e => Except.error e
    | Except.ok clientSecret =>
        Except.ok
          { baseUrl := jsOr (getConfig env "SMARTCAR_API_ORIGIN") config.api
            auth := { user := some clientId, pass := some clientSecret }
            qs := buildQueryParams vin scope country options
            method := "get"
            path := "v" ++ jsOr options.version config.version ++ "/compatibility" }

/-- Exactly one authentication mechanism on a request: a bearer token
and no basic-auth pair, or a basic-auth pair and no bearer token. -/
def exactlyOneAuth (a : Auth) : Prop :=
  (a.bearer.isSome = true ∧ a.user = none ∧ a.pass = none) ∨
  (a.bearer = none ∧ a.user.isSome = true ∧ a.pass.isSome = true)

/-! ## Helper lemmas -/

/-- The `scope` parameter is always the space-joined scope list. -/
theorem buildQueryParams_scope (vin : String) (scope : List String) (country : String)
    (options : CompatOptions) :
    getParam (buildQueryParams vin scope country options) "scope" =
      some (String.intercalate " " scope) := by
  obtain ⟨fl, tm, lvl, ci, cs, vr⟩ := options
  unfold buildQueryParams
  rcases fl with _ | fl <;> rcases tm with _ | tm <;> rcases lvl with _ | lvl <;>
    simp [setParam, getParam, List.lookup] <;>
    split <;> simp [setParam, getParam, List.lookup]

/-- The `vin` parameter is always the input VIN. -/
theorem buildQueryParams_vin (vin : String) (scope : List String) (country : String)
    (options : CompatOptions) :
    getParam (buildQueryParams vin scope country options) "vin" = some vin := by
  obtain ⟨fl, tm, lvl, ci, cs, vr⟩ := options
  unfold buildQueryParams
  rcases fl with _ | fl <;> rcases tm with _ | tm <;> rcases lvl with _ | lvl <;>
    simp [setParam, getParam, List.lookup] <;>
    split <;> simp [setParam, getParam, List.lookup]

/-- The `country` parameter is always the country argument. -/
theorem buildQueryParams_country (vin : String) (scope : List String) (country : String)
    (options : CompatOptions) :
    getParam (buildQueryParams vin scope country options) "country" = some country := by
  obtain ⟨fl, tm, lvl, ci, cs, vr⟩ := options
  unfold buildQueryParams
  rcases fl with _ | fl <;> rcases tm with _ | tm <;> rcases lvl with _ | lvl <;>
    simp [setParam, getParam, List.lookup] <;>
    split <;> simp [setParam, getParam, List.lookup]

/-- A truthy `testModeCompatibilityLevel` forces `mode = "test"` and is
passed through, whatever `testMode` says. -/
theorem buildQueryParams_mode_of_level (vin : String) (scope : List String)
    (country : String) (options : CompatOptions) (lvl : String) (hl : lvl ≠ "")
    (he : options.testModeCompatibilityLevel = some lvl) :
    getParam (buildQueryParams vin scope country options) "mode" = some "test" ∧
    getParam (buildQueryParams vin scope country options)
      "test_mode_compatibility_level" = some lvl := by
  obtain ⟨fl, tm, _, ci, cs, vr⟩ := options
  cases he
  unfold buildQueryParams
  rcases fl with _ | fl <;> rcases tm with _ | tm <;>
    simp [setParam, getParam, List.lookup, hl]

/-- Without a truthy compatibility level, a present `testMode` key sets
`mode` to `"test"` or `"live"` by its value. -/
theorem buildQueryParams_mode_of_testMode (vin : String) (scope : List String)
    (country : String) (options : CompatOptions) (b : Bool)
    (hl : truthyStr options.testModeCompatibilityLevel = false)
    (ht : options.testMode = some b) :
    getParam (buildQueryParams vin scope country options) "mode" =
      some (if b then "test" else "live") := by
  obtain ⟨fl, _, lvl, ci, cs, vr⟩ := options
  cases ht
  unfold buildQueryParams
  rcases fl with _ | fl <;> rcases lvl with _ | lvl <;>
    simp [truthyStr, setParam, getParam, List.lookup] at hl ⊢ <;>
    simp [hl, getParam, List.lookup]

/-- The exact key inventory of the built parameter object. -/
theorem buildQueryParams_keys (vin : String) (scope : List String) (country : String)
    (options : CompatOptions) (k : String) :
    k ∈ (buildQueryParams vin scope country options).map Prod.fst ↔
      (k = "vin" ∨ k = "scope" ∨ k = "country" ∨
       (k = "flags" ∧ options.flags.isSome = true) ∨
       (k = "mode" ∧ (options.testMode.isSome = true ∨
          truthyStr options.testModeCompatibilityLevel = true)) ∨
       (k = "test_mode_compatibility_level" ∧
          truthyStr options.testModeCompatibilityLevel = true)) := by
  obtain ⟨fl, tm, lvl, ci, cs, vr⟩ := options
  unfold buildQueryParams
  rcases fl with _ | fl <;> rcases tm with _ | tm <;> rcases lvl with _ | lvl <;>
    simp [truthyStr, setParam, getParam, List.lookup, -List.mem_map] <;>
    rcases eq_or_ne lvl "" with h | h <;> simp [h, -List.mem_map] <;> tauto

/-- Everything `getCompatibility` puts into a successfully constructed
request: base URL resolution, basic auth, query string, and path. -/
theorem getCompatibilityRequest_ok (env : Env) (config : Config) (vin : String)
    (scope : List String) (country : Option String) (options : CompatOptions)
    (r : Request)
    (h : getCompatibilityRequest env config vin scope country options = Except.ok r) :
    r.baseUrl = jsOr env.apiOrigin config.api ∧
    r.auth.bearer = none ∧ r.auth.user.isSome = true ∧ r.auth.pass.isSome = true ∧
    r.qs = buildQueryParams vin scope (jsOr country "US") options ∧
    r.path = "v" ++ jsOr options.version config.version ++ "/compatibility" := by
  unfold getCompatibilityRequest at h
  revert h
  cases (if truthyStr options.clientId then Except.ok (options.clientId.getD "")
         else getOrThrowConfig env "SMARTCAR_CLIENT_ID") with
  | error e => intro h; cases h
  | ok clientId =>
    cases (if truthyStr options.clientSecret then Except.ok (options.clientSecret.getD "")
           else getOrThrowConfig env "SMARTCAR_CLIENT_SECRET") with
    | error e => intro h; cases h
    | ok clientSecret =>
      intro h
      cases h
      refine ⟨?_, rfl, rfl, rfl, rfl, rfl⟩
      simp [getConfig]

/-- A path already starting with a slash is its own effective path. -/
theorem effectivePath_user (s : String) :
    effectivePath ("/v" ++ s ++ "/user") = "/v" ++ s ++ "/user" := by
  cases s with
  | mk data => rfl

/-- A path starting with `v` gets a slash prepended by the URL join. -/
theorem effectivePath_compat (s : String) :
    effectivePath ("v" ++ s ++ "/compatibility") = "/v" ++ s ++ "/compatibility" := by
  cases s with
  | mk data => rfl


/-! ## Claim theorems -/

/-- Claim C1 (corrected).  Amended claim: a `testModeCompatibilityLevel`
that is present *with a truthy (nonempty) value* forces `mode = "test"`
and is passed through as `test_mode_compatibility_level`, overriding the
`testMode` rule; without a truthy level, a present `testMode` key (even
`false`) sets `mode` to `"test"` or `"live"` by its value.  In
particular `testModeCompatibilityLevel` with `testMode: false` still
yields `mode = "test"`. -/
theorem buildQueryParams_mode_rules (vin : String) (scope : List String)
    (country : String) (options : CompatOptions) :
    (∀ lvl, lvl ≠ "" → options.testModeCompatibilityLevel = some lvl →
       getParam (buildQueryParams vin scope country options) "mode" = some "test" ∧
       getParam (buildQueryParams vin scope country options)
         "test_mode_compatibility_level" = some lvl) ∧
    (truthyStr options.testModeCompatibilityLevel = false →
       ∀ b, options.testMode = some b →
         getParam (buildQueryParams vin scope country options) "mode" =
           some (if b then "test" else "live")) :=
  ⟨fun lvl hl he => buildQueryParams_mode_of_level vin scope country options lvl hl he,
   fun hl b ht => buildQueryParams_mode_of_testMode vin scope country options b hl ht⟩

/-- Claim C1 witness: at a concrete truthy level `"6"` with
`testMode: false` the mode is `"test"`, and with `testMode: false` alone
the mode is `"live"`. -/
theorem buildQueryParams_mode_rules_witness :
    ("6" : String) ≠ "" ∧
    getParam (buildQueryParams "VIN" ["read_odometer"] "US"
        { testMode := some false, testModeCompatibilityLevel := some "6" }) "mode" =
      some "test" ∧
    getParam (buildQueryParams "VIN" ["read_odometer"] "US"
        { testMode := some false }) "mode" = some "live" :=
  ⟨by decide,
   ((buildQueryParams_mode_rules "VIN" ["read_odometer"] "US"
      { testMode := some false, testModeCompatibilityLevel := some "6" }).1
        "6" (by decide) rfl).1,
   (buildQueryParams_mode_rules "VIN" ["read_odometer"] "US"
      { testMode := some false }).2 (by decide) false rfl⟩

/-- Claim C1 counterexample: `testModeCompatibilityLevel` *present* with
the falsy value `""` does not set `mode` at all — the claim as stated
(presence suffices) is false. -/
theorem buildQueryParams_mode_presence_counterexample :
    (({ testModeCompatibilityLevel := some "" } :
        CompatOptions).testModeCompatibilityLevel).isSome = true ∧
    getParam (buildQueryParams "VIN" [] "US"
        ({ testModeCompatibilityLevel := some "" } : CompatOptions)) "mode" ≠
      some "test" := by
  exact ⟨rfl, by decide⟩

/-- Claim C2: `verifyPayload(amt, signature, body)` is true exactly when
the signature equals `hashChallenge(amt, JSON.stringify(body))`; the
matching digest verifies, and any differing signature (hex case
included, since the comparison is plain string equality) yields false. -/
theorem verifyPayload_iff_hashChallenge (amt sig : String) (body : Json) :
    (verifyPayload amt sig body = true ↔
      sig = hashChallenge amt (jsonStringify body)) ∧
    verifyPayload amt (hashChallenge amt (jsonStringify body)) body = true ∧
    (sig ≠ hashChallenge amt (jsonStringify body) →
      verifyPayload amt sig body = false) := by
  refine ⟨?_, ?_, ?_⟩
  · simp only [verifyPayload, beq_iff_eq]
    exact eq_comm
  · simp [verifyPayload]
  · intro h
    simp only [verifyPayload, beq_eq_false_iff_ne, ne_eq]
    exact fun hh => h hh.symm

set_option maxRecDepth 10000 in
/-- Claim C2 witness: the empty signature differs from the digest of the
`null` body and is rejected. -/
theorem verifyPayload_iff_hashChallenge_witness :
    ("" : String) ≠ hashChallenge "amt" (jsonStringify Json.null) ∧
    verifyPayload "amt" "" Json.null = false := by
  have h : ("" : String) ≠ hashChallenge "amt" (jsonStringify Json.null) := by decide
  exact ⟨h, (verifyPayload_iff_hashChallenge "amt" "" Json.null).2.2 h⟩

/-- Claim C3: relative to the base URL, the request path of `getUser` is
`/v{configured version}/user`, and the path of a successfully built
`getCompatibility` request starts with `/v{version}` where the version
is the per-call override when truthy, else the configured one. -/
theorem request_path_versioned (env : Env) (config : Config)
    (accessToken : String) (vin : String) (scope : List String)
    (country : Option String) (options : CompatOptions) :
    (∃ rest, effectivePath (getUserRequest env config accessToken).path =
        "/v" ++ config.version ++ rest) ∧
    (∀ r, getCompatibilityRequest env config vin scope country options = Except.ok r →
       ∃ rest, effectivePath r.path =
         "/v" ++ jsOr options.version config.version ++ rest) := by
  constructor
  · exact ⟨"/user", effectivePath_user config.version⟩
  · intro r h
    obtain ⟨_, _, _, _, _, hp⟩ :=
      getCompatibilityRequest_ok env config vin scope country options r h
    refine ⟨"/compatibility", ?_⟩
    rw [hp]
    exact effectivePath_compat (jsOr options.version config.version)

/-- Claim C3 witness: a concrete compatibility request with a per-call
version override `"3.0"` over a configured `"2.0"`. -/
theorem request_path_versioned_witness :
    getCompatibilityRequest { } { api := "https://api.smartcar.com", version := "2.0" }
        "VIN" [] none
        ({ clientId := some "id", clientSecret := some "sec", version := some "3.0" } :
          CompatOptions) =
      Except.ok
        { baseUrl := "https://api.smartcar.com"
          auth := { bearer := none, user := some "id", pass := some "sec" }
          qs := [("vin", "VIN"), ("scope", ""), ("country", "US")]
          method := "get"
          path := "v3.0/compatibility" } ∧
    (∃ rest, effectivePath
        ({ baseUrl := "https://api.smartcar.com"
           auth := { bearer := none, user := some "id", pass := some "sec" }
           qs := [("vin", "VIN"), ("scope", ""), ("country", "US")]
           method := "get"
           path := "v3.0/compatibility" } : Request).path =
      "/v" ++ jsOr (some "3.0") "2.0" ++ rest) := by
  have h : getCompatibilityRequest { } { api := "https://api.smartcar.com", version := "2.0" }
      "VIN" [] none
      ({ clientId := some "id", clientSecret := some "sec", version := some "3.0" } :
        CompatOptions) =
      Except.ok
        { baseUrl := "https://api.smartcar.com"
          auth := { bearer := none, user := some "id", pass := some "sec" }
          qs := [("vin", "VIN"), ("scope", ""), ("country", "US")]
          method := "get"
          path := "v3.0/compatibility" } := by rfl
  exact ⟨h,
    (request_path_versioned { } { api := "https://api.smartcar.com", version := "2.0" }
      "tok" "VIN" [] none
      ({ clientId := some "id", clientSecret := some "sec", version := some "3.0" } :
        CompatOptions)).2 _ h⟩

/-- Claim C4: `buildQueryParams` always renders `scope` as the
space-joined scope list in input order, and an empty scope list yields
the parameter present with the empty string. -/
theorem buildQueryParams_scope_join (vin : String) (scope : List String)
    (country : String) (options : CompatOptions) :
    getParam (buildQueryParams vin scope country options) "scope" =
      some (String.intercalate " " scope) ∧
    getParam (buildQueryParams vin [] country options) "scope" = some "" :=
  ⟨buildQueryParams_scope vin scope country options,
   buildQueryParams_scope vin [] country options⟩


/-- Claim C5 (corrected).  Amended claim: `getCompatibility` fails
before building its request exactly when the client id is not supplied
as a truthy (nonempty) string in `options.clientId` and
`SMARTCAR_CLIENT_ID` is unavailable, or likewise for the client secret;
when both are supplied as nonempty strings no environment lookup
failure can occur. -/
theorem getCompatibility_credentials_error_iff (env : Env) (config : Config)
    (vin : String) (scope : List String) (country : Option String)
    (options : CompatOptions) :
    (getCompatibilityRequest env config vin scope country options).isOk = false ↔
      ((truthyStr options.clientId = false ∧ env.clientId = none) ∨
       (truthyStr options.clientSecret = false ∧ env.clientSecret = none)) := by
  unfold getCompatibilityRequest getOrThrowConfig getConfig
  cases hci : truthyStr options.clientId <;> cases hcs : truthyStr options.clientSecret <;>
    rcases env with ⟨eo, eci, ecs⟩ <;> rcases eci with _ | eci <;> rcases ecs with _ | ecs <;>
      simp [Except.isOk, Except.toBool]

/-- Claim C5 counterexample: `clientId` supplied in the options bag as
the empty string, with no environment fallback, still raises the error —
the claim as stated (any supplied `options.clientId` prevents the
failure) is false. -/
theorem getCompatibility_empty_clientId_counterexample :
    (({ clientId := some "", clientSecret := some "x" } :
        CompatOptions).clientId).isSome = true ∧
    (getCompatibilityRequest { } { api := "https://api.smartcar.com", version := "2.0" }
        "VIN" [] none
        ({ clientId := some "", clientSecret := some "x" } : CompatOptions)).isOk =
      false := by
  exact ⟨rfl, by decide⟩

/-- Claim C6: `getUser` and `getVehicles` carry only a bearer token, and
a successfully built `getCompatibility` request carries only basic auth
— every request has exactly one authentication mechanism. -/
theorem requests_exactly_one_auth (env : Env) (config : Config) (accessToken : String)
    (paging : Params) (vin : String) (scope : List String) (country : Option String)
    (options : CompatOptions) :
    exactlyOneAuth (getUserRequest env config accessToken).auth ∧
    (getUserRequest env config accessToken).auth.bearer = some accessToken ∧
    exactlyOneAuth (getVehiclesRequest config accessToken paging).auth ∧
    (getVehiclesRequest config accessToken paging).auth.bearer = some accessToken ∧
    (∀ r, getCompatibilityRequest env config vin scope country options = Except.ok r →
       exactlyOneAuth r.auth ∧ r.auth.bearer = none) := by
  refine ⟨Or.inl ⟨rfl, rfl, rfl⟩, rfl, Or.inl ⟨rfl, rfl, rfl⟩, rfl, ?_⟩
  intro r h
  obtain ⟨_, hb, hu, hp, _, _⟩ :=
    getCompatibilityRequest_ok env config vin scope country options r h
  exact ⟨Or.inr ⟨hb, hu, hp⟩, hb⟩

/-- Claim C6 witness: a concrete compatibility request carries basic
auth only. -/
theorem requests_exactly_one_auth_witness :
    getCompatibilityRequest { } { api := "https://api.smartcar.com", version := "2.0" }
        "VIN" [] none
        ({ clientId := some "id", clientSecret := some "sec" } : CompatOptions) =
      Except.ok
        { baseUrl := "https://api.smartcar.com"
          auth := { bearer := none, user := some "id", pass := some "sec" }
          qs := [("vin", "VIN"), ("scope", ""), ("country", "US")]
          method := "get"
          path := "v2.0/compatibility" } ∧
    exactlyOneAuth
      ({ baseUrl := "https://api.smartcar.com"
         auth := { bearer := none, user := some "id", pass := some "sec" }
         qs := [("vin", "VIN"), ("scope", ""), ("country", "US")]
         method := "get"
         path := "v2.0/compatibility" } : Request).auth := by
  have h : getCompatibilityRequest { } { api := "https://api.smartcar.com", version := "2.0" }
      "VIN" [] none
      ({ clientId := some "id", clientSecret := some "sec" } : CompatOptions) =
      Except.ok
        { baseUrl := "https://api.smartcar.com"
          auth := { bearer := none, user := some "id", pass := some "sec" }
          qs := [("vin", "VIN"), ("scope", ""), ("country", "US")]
          method := "get"
          path := "v2.0/compatibility" } := by rfl
  exact ⟨h,
    ((requests_exactly_one_auth { } { api := "https://api.smartcar.com", version := "2.0" }
      "tok" [] "VIN" [] none
      ({ clientId := some "id", clientSecret := some "sec" } : CompatOptions)).2.2.2.2
        _ h).1⟩

/-- Claim C7: in a successfully built `getCompatibility` request, an
absent or empty country argument sends `country = "US"`, and any other
country code is passed through unchanged. -/
theorem getCompatibility_country_default (env : Env) (config : Config) (vin : String)
    (scope : List String) (country : Option String) (options : CompatOptions)
    (r : Request)
    (h : getCompatibilityRequest env config vin scope country options = Except.ok r) :
    ((country = none ∨ country = some "") → getParam r.qs "country" = some "US") ∧
    (∀ c, c ≠ "" → country = some c → getParam r.qs "country" = some c) := by
  obtain ⟨_, _, _, _, hqs, _⟩ :=
    getCompatibilityRequest_ok env config vin scope country options r h
  constructor
  · intro hc
    rw [hqs, buildQueryParams_country]
    rcases hc with hc | hc <;> simp [hc, jsOr]
  · intro c hc hcc
    rw [hqs, buildQueryParams_country]
    simp [hcc, jsOr, hc]

/-- Claim C7 witness: a concrete request with the country argument
absent sends `country = "US"`. -/
theorem getCompatibility_country_default_witness :
    getCompatibilityRequest { } { api := "https://api.smartcar.com", version := "2.0" }
        "VIN" ["read_vin"] none
        ({ clientId := some "id", clientSecret := some "sec" } : CompatOptions) =
      Except.ok
        { baseUrl := "https://api.smartcar.com"
          auth := { bearer := none, user := some "id", pass := some "sec" }
          qs := [("vin", "VIN"), ("scope", "read_vin"), ("country", "US")]
          method := "get"
          path := "v2.0/compatibility" } ∧
    getParam
      ({ baseUrl := "https://api.smartcar.com"
         auth := { bearer := none, user := some "id", pass := some "sec" }
         qs := [("vin", "VIN"), ("scope", "read_vin"), ("country", "US")]
         method := "get"
         path := "v2.0/compatibility" } : Request).qs "country" = some "US" := by
  have h : getCompatibilityRequest { } { api := "https://api.smartcar.com", version := "2.0" }
      "VIN" ["read_vin"] none
      ({ clientId := some "id", clientSecret := some "sec" } : CompatOptions) =
      Except.ok
        { baseUrl := "https://api.smartcar.com"
          auth := { bearer := none, user := some "id", pass := some "sec" }
          qs := [("vin", "VIN"), ("scope", "read_vin"), ("country", "US")]
          method := "get"
          path := "v2.0/compatibility" } := by rfl
  exact ⟨h,
    (getCompatibility_country_default { } { api := "https://api.smartcar.com", version := "2.0" }
      "VIN" ["read_vin"] none
      ({ clientId := some "id", clientSecret := some "sec" } : CompatOptions) _ h).1
      (Or.inl rfl)⟩

set_option maxRecDepth 10000 in
/-- Claim C8: `hashChallenge` is the hex-encoded HMAC-SHA256 of the
challenge keyed by the token, and at the concrete point
`hashChallenge("key", "abc")` it equals the digest computed by an
independent reference HMAC-SHA256 implementation. -/
theorem hashChallenge_hmac_sha256 (amt challenge : String) :
    hashChallenge amt challenge =
      toHex (hmacSha256 (strToBytes amt) (strToBytes challenge)) ∧
    hashChallenge "key" "abc" =
      "9c196e32dc0175f86f4b1cb89289d6619de6bee699e4c378e68309ed97a1a6ab" :=
  ⟨rfl, by decide⟩

/-- Claim C9 (corrected).  Amended claim: the base URL of `getUser` and
`getCompatibility` is the `SMARTCAR_API_ORIGIN` environment override
when it is set to a nonempty value, falling back to the in-memory
default when the override is unset *or set to the empty string*; and
after `setApiVersion(v)`, `getApiVersion()` returns `v`. -/
theorem baseUrl_env_override (env : Env) (config : Config) (accessToken v : String)
    (vin : String) (scope : List String) (country : Option String)
    (options : CompatOptions) :
    ((env.apiOrigin = none ∨ env.apiOrigin = some "") →
       (getUserRequest env config accessToken).baseUrl = config.api) ∧
    (∀ s, s ≠ "" → env.apiOrigin = some s →
       (getUserRequest env config accessToken).baseUrl = s) ∧
    (∀ r, getCompatibilityRequest env config vin scope country options = Except.ok r →
       r.baseUrl = (getUserRequest env config accessToken).baseUrl) ∧
    getApiVersion (setApiVersion v config) = v := by
  refine ⟨?_, ?_, ?_, rfl⟩
  · rintro (hc | hc) <;> simp [getUserRequest, getConfig, jsOr, hc]
  · intro s hs he
    simp [getUserRequest, getConfig, jsOr, he, hs]
  · intro r h
    obtain ⟨hb, _⟩ := getCompatibilityRequest_ok env config vin scope country options r h
    rw [hb]
    simp [getUserRequest, getConfig]

/-- Claim C9 witness: unset override falls back, a nonempty override
wins, and the version setter round-trips. -/
theorem baseUrl_env_override_witness :
    (getUserRequest { } { api := "https://api.smartcar.com", version := "2.0" } "t").baseUrl =
      "https://api.smartcar.com" ∧
    (getUserRequest { apiOrigin := some "http://localhost:8000" }
        { api := "https://api.smartcar.com", version := "2.0" } "t").baseUrl =
      "http://localhost:8000" ∧
    getApiVersion (setApiVersion "4.0" { api := "https://api.smartcar.com", version := "2.0" }) =
      "4.0" := by
  refine ⟨?_, ?_, ?_⟩
  · exact (baseUrl_env_override { } { api := "https://api.smartcar.com", version := "2.0" }
      "t" "4.0" "VIN" [] none { }).1 (Or.inl rfl)
  · exact (baseUrl_env_override { apiOrigin := some "http://localhost:8000" }
      { api := "https://api.smartcar.com", version := "2.0" }
      "t" "4.0" "VIN" [] none { }).2.1 "http://localhost:8000" (by decide) rfl
  · exact (baseUrl_env_override { } { api := "https://api.smartcar.com", version := "2.0" }
      "t" "4.0" "VIN" [] none { }).2.2.2

/-- Claim C9 counterexample: the override set to the empty string is not
used — the base URL falls back to the in-memory default although the
override is not unset, so the claim as stated is false. -/
theorem baseUrl_empty_override_counterexample :
    ({ apiOrigin := some "" } : Env).apiOrigin = some "" ∧
    (getUserRequest { apiOrigin := some "" }
        { api := "https://api.smartcar.com", version := "2.0" } "t").baseUrl ≠ "" := by
  exact ⟨rfl, by decide⟩

/-- Claim C10: the parameter object built by `buildQueryParams` has
exactly the keys `vin`, `scope`, `country`, plus `flags` when
`options.flags` is truthy, `mode` when a `testMode` key is present or
the compatibility level is truthy, and `test_mode_compatibility_level`
when the compatibility level is truthy; the `vin` value is the input
VIN unchanged. -/
theorem buildQueryParams_exact_keys (vin : String) (scope : List String)
    (country : String) (options : CompatOptions) (k : String) :
    (k ∈ (buildQueryParams vin scope country options).map Prod.fst ↔
      (k = "vin" ∨ k = "scope" ∨ k = "country" ∨
       (k = "flags" ∧ options.flags.isSome = true) ∨
       (k = "mode" ∧ (options.testMode.isSome = true ∨
          truthyStr options.testModeCompatibilityLevel = true)) ∨
       (k = "test_mode_compatibility_level" ∧
          truthyStr options.testModeCompatibilityLevel = true))) ∧
    getParam (buildQueryParams vin scope country options) "vin" = some vin :=
  ⟨buildQueryParams_keys vin scope country options k,
   buildQueryParams_vin vin scope country options⟩

end NodeSdk
